import Mathlib

/-!
Verification development for the HEIC → PNG/JPEG batch converter
(`heic_batch_converter.py`, the basic variant, and `heic_converter_app.py`,
the diagnostic-logging variant).  The Python sources are shallowly embedded:
pure path manipulation becomes functions on `String`, the file system and the
imaging library (Pillow / pillow-heif) become explicit oracle records whose
fields return `Except`-classified results (a raised exception is the `error`
case), and each worker thread's `run` method becomes a function from the
oracle record and the configuration to the list of callback events it emits.
-/

/-! ## Path helpers (pathlib semantics on already-normalised path strings)

`Path.name`, `Path.suffix`, `Path.stem` and `Path.parent` as used by the
sources.  Inputs are assumed already in pathlib's normalised spelling
(no repeated or trailing slashes), which is what `Path(...)` hands the
converter.  `Path.suffix` follows pathlib exactly: the final component's
substring from its last dot, empty when that dot is the first or would be
the last character of the name. -/

/-- `Path(p).name`: the final path component (the characters after the last
`/`, here read off the reversed character list). -/
def pathName (p : String) : String :=
  String.mk ((p.data.reverse.takeWhile (fun c => c ≠ '/')).reverse)

/-- `Path(p).suffix`: the extension of the final component, pathlib style. -/
def pathSuffix (p : String) : String :=
  let name := (pathName p).data
  let k := name.reverse.findIdx (· == '.')
  if 0 < k ∧ k < name.length - 1 then
    String.mk ((name.reverse.take (k + 1)).reverse)
  else ""

/-- `Path(p).stem`: the final component with its suffix removed. -/
def pathStem (p : String) : String :=
  let name := pathName p
  let suf := pathSuffix p
  if suf = "" then name else String.mk (name.data.take (name.length - suf.length))

/-- `Path(p).parent` rendered as a string (`"."` when there is no `/`). -/
def pathParent (p : String) : String :=
  match p.data.reverse.dropWhile (fun c => c ≠ '/') with
  | [] => "."
  | _ :: t => String.mk t.reverse

/-- Python `str.lower()` restricted to ASCII (all the sources compare
against is the ASCII literal `"exif"`). -/
def charLower (c : Char) : Char :=
  if 'A' ≤ c ∧ c ≤ 'Z' then Char.ofNat (c.toNat + 32) else c

/-- `s.lower()` on a string. -/
def strLower (s : String) : String :=
  String.mk (s.data.map charLower)

/-- `s.endswith(t)` — a character-level suffix test (pathlib's fnmatch of a
`*X` pattern against a component name reduces to exactly this). -/
def strEndsWith (s t : String) : Bool :=
  s.data.reverse.take t.data.length == t.data.reverse

/-- Python truthiness of an optional bytes value (`if icc:` /
`md.get("data")`): present and non-empty. -/
def truthyBytes : Option String → Bool
  | none => false
  | some s => s ≠ ""

/-! ## File system model for the collector

`collect_heic_files` consults the file system only through `is_dir`,
`is_file` and `rglob`; the user-visible dedup claim additionally talks about
`Path.resolve()`.  `tree d` is the recursive enumeration under directory `d`
in traversal order; `rglob(d, "*" + ext)` is its filter by name suffix
(pathlib's fnmatch of `*X` against the component name). -/

structure FS where
  isDir : String → Bool
  isFile : String → Bool
  tree : String → List String
  resolve : String → String

/-- `SUPPORTED_EXTS = {".heic", ".heif", ".HEIC", ".HEIF"}` — the Python set,
modelled as a list fixing one iteration order (membership is what matters). -/
def SUPPORTED_EXTS : List String := [".heic", ".heif", ".HEIC", ".HEIF"]

/-- `p.rglob(f"*{ext}")`: recursive entries under `p` whose name ends with
`ext` (pathlib's `*X` fnmatch, case-sensitive as on a POSIX file system). -/
def rglobMatch (fs : FS) (dir ext : String) : List String :=
  (fs.tree dir).filter (fun q => strEndsWith (pathName q) ext)

/-- The per-input branch of `collect_heic_files`: directories contribute the
four `rglob` sweeps, matching files contribute themselves, everything else
contributes nothing. -/
def collectStep (fs : FS) (p : String) : List String :=
  if fs.isDir p then
    SUPPORTED_EXTS.flatMap (rglobMatch fs p)
  else if fs.isFile p ∧ pathSuffix p ∈ SUPPORTED_EXTS then [p] else []

/-- The `files` list of `collect_heic_files` before deduplication. -/
def rawFiles (fs : FS) (paths : List String) : List String :=
  paths.flatMap (collectStep fs)

/-- The dedup loop of `collect_heic_files`: `seen` is the Python set, `uniq`
the accumulated output. -/
def dedupLoop (seen uniq : List String) : List String → List String
  | [] => uniq
  | f :: rest =>
    if f ∈ seen then dedupLoop seen uniq rest
    else dedupLoop (f :: seen) (uniq ++ [f]) rest

/-- `collect_heic_files(paths)` (identical in both source files). -/
def collect_heic_files (fs : FS) (paths : List String) : List String :=
  dedupLoop [] [] (rawFiles fs paths)

/-- First-seen-order deduplication expressed as a fold, the specification
target for the dedup loop. -/
def insertNew (acc : List String) (x : String) : List String :=
  if x ∈ acc then acc else acc ++ [x]

/-! ## Output path resolver (`safe_output_path`, identical in both files)

Disk state enters only through an existence oracle `ex : String → Bool`
(`Path.exists()` at call time).  The `while candidate.exists()` loop is
embedded with an explicit bound `N`: any index whose candidate does not
exist.  Under the hypothesis `ex (spCandidate dir base ext N) = false` the
bounded loop and the source loop coincide (the loop can never run past `N`),
which is exactly the finiteness condition of the implicit termination claim. -/

/-- The `idx`-th candidate tried by `safe_output_path`:
`dir / f"{base}{ext}"` for `idx = 0`, `dir / f"{base}_{idx}{ext}"` after. -/
def spCandidate (dir base ext : String) (n : Nat) : String :=
  if n = 0 then dir ++ "/" ++ base ++ ext
  else dir ++ "/" ++ base ++ "_" ++ toString n ++ ext

/-- The collision loop: while the current candidate exists, move to the next
index.  `N` is a bound carrying the termination evidence; when
`ex (spCandidate dir base ext N) = false` the extra `idx < N` guard is
redundant and the loop behaves exactly like the source's `while`. -/
def spLoop (ex : String → Bool) (dir base ext : String) (N idx : Nat) : String :=
  if h : ex (spCandidate dir base ext idx) = true ∧ idx < N then
    spLoop ex dir base ext N (idx + 1)
  else spCandidate dir base ext idx
termination_by N - idx
decreasing_by omega

/-- `safe_output_path(src, out_dir, out_ext)`: base name from the source's
stem, target directory `out_dir` when given else the source's parent, then
the collision loop starting at the plain candidate. -/
def safe_output_path (ex : String → Bool) (src : String) (out_dir : Option String)
    (out_ext : String) (N : Nat) : String :=
  let base := pathStem src
  let dir := out_dir.getD (pathParent src)
  spLoop ex dir base out_ext N 0

/-! ## Imaging model

A raised Python exception is an `Except.error` carrying a `PyErr`;
`PyErr.unidentified` is Pillow's `UnidentifiedImageError`, every other
exception class is `PyErr.other`.  `Img` records exactly what the converter
reads from a PIL image: its mode and the `info` dictionary's `exif` /
`icc_profile` entries.  `HeifFile` records what `open_image_any` reads from
a `pillow_heif.HeifFile`. -/

inductive PyErr where
  | unidentified : String → PyErr
  | other : String → PyErr
deriving DecidableEq, Repr

/-- The message text of an exception (used in log lines). -/
def errMsg : PyErr → String
  | .unidentified m => m
  | .other m => m

structure Img where
  mode : String
  info_exif : Option String
  info_icc : Option String
deriving DecidableEq, Repr

/-- One entry of `HeifFile.metadata`: a dict with `type` and `data` keys. -/
structure MdEntry where
  mdType : String
  data : Option String
deriving DecidableEq, Repr

/-- `HeifFile.color_profile`: a dict with `type` and `icc_profile` keys. -/
structure ColorProfile where
  cpType : String
  icc_profile : Option String
deriving DecidableEq, Repr

structure HeifFile where
  metadata : List MdEntry
  color_profile : Option ColorProfile
  mode : String
  size : Nat × Nat
  data : String
deriving DecidableEq, Repr

/-- The `save_kwargs` dictionary passed to `im.save`: optional keys are
`Option` fields (absent = `none`), boolean keys default to `false`. -/
structure SaveKwargs where
  quality : Option Nat
  optimize : Bool
  progressive : Bool
  icc_profile : Option String
  exif : Option String
deriving DecidableEq, Repr

/-- Oracle record for every effectful library / file-system call the two
worker threads make.  Each field models one call site; `error` is a raised
exception there.  `resolveOut` is the `safe_output_path(src, out_dir,
out_ext)` call viewed from the runner (disk probing may raise `OSError`);
`save` covers `im.save(out_path, fmt, **save_kwargs)` (directory creation
is taken as succeeding); `pathResolve` is `str(Path(src).resolve())`. -/
structure Env where
  resolveOut : String → Option String → String → Except PyErr String
  imageOpen : String → Except PyErr Img
  openHeif : String → Except PyErr HeifFile
  frombytes : String → Nat × Nat → String → Except PyErr Img
  seekFirst : Img → Except PyErr Img
  transpose : Img → Except PyErr Img
  convertRGB : Img → Img
  save : Img → String → String → SaveKwargs → Except PyErr Unit
  pathResolve : String → String

/-- The EXIF scan of `open_image_any`'s fallback: first metadata entry whose
`type` lowercases to `"exif"` and whose `data` is truthy. -/
def findExif : List MdEntry → Option String
  | [] => none
  | md :: rest =>
    if strLower md.mdType = "exif" ∧ truthyBytes md.data then md.data
    else findExif rest

/-- The ICC extraction of `open_image_any`'s fallback: the `icc_profile`
value of `color_profile` when that dict is present and the value truthy. -/
def cpIcc : Option ColorProfile → Option String
  | some cp => if truthyBytes cp.icc_profile then cp.icc_profile else none
  | none => none

/-- The dedicated HEIF decode path of `open_image_any`: `open_heif`, scan
metadata for EXIF, read the colour profile, build the image from the raw
buffer via `Image.frombytes(hf.mode, hf.size, hf.data, "raw")`. -/
def heifFallback (env : Env) (path : String) :
    Except PyErr (Img × Option String × Option String) := do
  let hf ← env.openHeif path
  let exif_bytes := findExif hf.metadata
  let icc := cpIcc hf.color_profile
  let im ← env.frombytes hf.mode hf.size hf.data
  pure (im, exif_bytes, icc)

/-- `open_image_any(path)` (`heic_converter_app.py`): try `Image.open`; on
`UnidentifiedImageError` — and only then — run the HEIF fallback; any other
exception propagates. -/
def open_image_any (env : Env) (path : String) :
    Except PyErr (Img × Option String × Option String) :=
  match env.imageOpen path with
  | .ok im => .ok (im, im.info_exif, im.info_icc)
  | .error (.unidentified _) => heifFallback env path
  | .error e => .error e

/-! ## The converter threads

A `ConverterThread` is configured by `Cfg` (its constructor arguments other
than the file list and the callbacks).  The callbacks are modelled as an
emitted event trace: `log_cb` calls become the `log*` events (one
constructor per call site, carrying that call site's f-string arguments),
`progress_cb(done, total)` becomes `progress done total`, and `done_cb()`
becomes `done`. -/

structure Cfg where
  out_dir : Option String
  fmt : String
  jpg_quality : Nat
  keep_exif : Bool
deriving DecidableEq, Repr

/-- `".png" if fmt == "PNG" else ".jpg"` (both variants). -/
def outExt (fmt : String) : String :=
  if fmt = "PNG" then ".png" else ".jpg"

/-- The `save_kwargs` computation shared verbatim by both variants: JPEG gets
quality/optimize/progressive, the ICC profile whenever truthy, and EXIF only
when `keep_exif` and the bytes are truthy; the PNG branch sets only
`optimize` (ICC embedding is commented out in both sources). -/
def make_save_kwargs (fmt : String) (jpg_quality : Nat) (keep_exif : Bool)
    (exif_bytes icc : Option String) : SaveKwargs :=
  if fmt = "JPEG" then
    { quality := some jpg_quality
      optimize := true
      progressive := true
      icc_profile := if truthyBytes icc then icc else none
      exif := if keep_exif ∧ truthyBytes exif_bytes then exif_bytes else none }
  else
    { quality := none
      optimize := true
      progressive := false
      icc_profile := none
      exif := none }

inductive Event where
  | logStart (absSrc : String)
  | logWarnSeek (msg : String)
  | logWarnTranspose (msg : String)
  | logOk (srcName outName : String)
  | logErr (src msg : String)
  | progress (done total : Nat)
  | done
deriving DecidableEq, Repr

/-- Any event produced by a `log_cb` call. -/
def isLogEvent : Event → Bool
  | .progress _ _ => false
  | .done => false
  | _ => true

/-- Any of the two warning log lines of the diagnostic variant. -/
def isWarnEvent : Event → Bool
  | .logWarnSeek _ => true
  | .logWarnTranspose _ => true
  | _ => false

/-- The pair carried by a `progress` event, `none` for every other event. -/
def progressOf : Event → Option (Nat × Nat)
  | .progress d t => some (d, t)
  | _ => none

/-- A terminal per-file log line — the success line or the error line —
passed through; every other event maps to `none`. -/
def terminalOf : Event → Option Event
  | .logOk s o => some (.logOk s o)
  | .logErr s m => some (.logErr s m)
  | _ => none

/-! ### Basic variant (`heic_batch_converter.py`, `ConverterThread.run`) -/

/-- The try-block of the basic variant's per-file iteration, as the
`Except`-valued pipeline it is: resolve the output path, `Image.open`, the
swallowed first-frame seek, `exif_transpose` (unguarded — its exception
reaches the outer handler), metadata read off the transposed image,
`save_kwargs`, RGB conversion for JPEG, then save.  Returns the output path
on success. -/
def basicConvert (env : Env) (cfg : Cfg) (src : String) : Except PyErr String :=
  match env.resolveOut src cfg.out_dir (outExt cfg.fmt) with
  | .error e => .error e
  | .ok out_path =>
    match env.imageOpen src with
    | .error e => .error e
    | .ok im =>
      let im1 := match env.seekFirst im with
        | .ok i => i
        | .error _ => im
      match env.transpose im1 with
      | .error e => .error e
      | .ok im2 =>
        let kw := make_save_kwargs cfg.fmt cfg.jpg_quality cfg.keep_exif
          im2.info_exif im2.info_icc
        let im3 := if cfg.fmt = "JPEG" ∧ im2.mode ≠ "RGB" then env.convertRGB im2 else im2
        match env.save im3 out_path cfg.fmt kw with
        | .error e => .error e
        | .ok _ => .ok out_path

/-- The one log line the basic variant emits for a file: the success line
`f"✔ 変換完了: {src.name} → {out_path.name}"` or the error line
`f"✖ エラー: {src}  ({e})"` of the per-file handler. -/
def basicTerminal (env : Env) (cfg : Cfg) (src : String) : Event :=
  match basicConvert env cfg src with
  | .ok out_path => .logOk (pathName src) (pathName out_path)
  | .error e => .logErr src (errMsg e)

/-- All log events of one iteration of the basic variant's loop (exactly the
terminal line; progress is emitted by the loop's `finally`). -/
def basicBody (env : Env) (cfg : Cfg) (src : String) : List Event :=
  [basicTerminal env cfg src]

/-! ### Diagnostic variant (`heic_converter_app.py`, `ConverterThread.run`) -/

/-- The guarded first-frame seek of the diagnostic variant: on failure a
warning line is logged and the image kept. -/
def seekStep (env : Env) (im : Img) : List Event × Img :=
  match env.seekFirst im with
  | .ok i => ([], i)
  | .error e => ([Event.logWarnSeek (errMsg e)], im)

/-- The guarded `exif_transpose` of the diagnostic variant: on failure a
warning line is logged and the un-transposed image kept. -/
def transposeStep (env : Env) (im : Img) : List Event × Img :=
  match env.transpose im with
  | .ok i => ([], i)
  | .error e => ([Event.logWarnTranspose (errMsg e)], im)

/-- The try-block of the diagnostic variant's per-file iteration after its
start log line: warnings emitted along the way paired with the
`Except`-classified result.  `open_image_any` supplies image and metadata;
a save failure is re-raised as `RuntimeError(f"[Save] で失敗: ...")`,
modelled by the `"[Save] "` message prefix. -/
def debugConvert (env : Env) (cfg : Cfg) (src : String) :
    List Event × Except PyErr String :=
  match env.resolveOut src cfg.out_dir (outExt cfg.fmt) with
  | .error e => ([], .error e)
  | .ok out_path =>
    match open_image_any env src with
    | .error e => ([], .error e)
    | .ok (im, exif_bytes, icc) =>
      let s1 := seekStep env im
      let s2 := transposeStep env s1.2
      let kw := make_save_kwargs cfg.fmt cfg.jpg_quality cfg.keep_exif exif_bytes icc
      let im3 := if cfg.fmt = "JPEG" ∧ s2.2.mode ≠ "RGB" then env.convertRGB s2.2 else s2.2
      match env.save im3 out_path cfg.fmt kw with
      | .error e => (s1.1 ++ s2.1, .error (.other ("[Save] " ++ errMsg e)))
      | .ok _ => (s1.1 ++ s2.1, .ok out_path)

/-- The diagnostic variant's terminal log line for a file: success line with
the names, or the error line `f"✖ エラー: {abs_src}\n{tb}"` carrying the
resolved source path. -/
def debugTerminal (env : Env) (cfg : Cfg) (src : String) : Event :=
  match (debugConvert env cfg src).2 with
  | .ok out_path => .logOk (pathName src) (pathName out_path)
  | .error e => .logErr (env.pathResolve src) (errMsg e)

/-- All log events of one iteration of the diagnostic variant's loop: the
start line `f"… 開始: {abs_src}"`, the warnings, then the terminal line. -/
def debugBody (env : Env) (cfg : Cfg) (src : String) : List Event :=
  Event.logStart (env.pathResolve src) ::
    (debugConvert env cfg src).1 ++ [debugTerminal env cfg src]

/-! ### The shared loop skeleton of both `run` methods -/

/-- `ConverterThread.run`'s loop: per file the body's log events followed by
the `finally` branch's `progress_cb(count, total)`, and after the list is
exhausted the single `done_cb()`. -/
def runLoop (body : String → List Event) (total : Nat) : Nat → List String → List Event
  | _, [] => [Event.done]
  | count, src :: rest =>
    body src ++ Event.progress (count + 1) total :: runLoop body total (count + 1) rest

/-- `ConverterThread.run` of `heic_batch_converter.py` as its event trace. -/
def runBasic (env : Env) (cfg : Cfg) (files : List String) : List Event :=
  runLoop (basicBody env cfg) files.length 0 files

/-- `ConverterThread.run` of `heic_converter_app.py` as its event trace. -/
def runDebug (env : Env) (cfg : Cfg) (files : List String) : List Event :=
  runLoop (debugBody env cfg) files.length 0 files

/-! ## Concrete instances used by counterexamples and witnesses -/

/-- A plain RGB image carrying no metadata. -/
def imgA : Img := { mode := "RGB", info_exif := none, info_icc := none }

/-- A minimal HEIF container. -/
def hfA : HeifFile :=
  { metadata := [], color_profile := none, mode := "RGB", size := (1, 1), data := "" }

/-- An oracle on which every library call succeeds. -/
def envOk : Env :=
  { resolveOut := fun src _ ext => .ok (src ++ ext)
    imageOpen := fun _ => .ok imgA
    openHeif := fun _ => .ok hfA
    frombytes := fun m _ _ => .ok { mode := m, info_exif := none, info_icc := none }
    seekFirst := fun im => .ok im
    transpose := fun im => .ok im
    convertRGB := fun im => { im with mode := "RGB" }
    save := fun _ _ _ _ => .ok ()
    pathResolve := fun s => "/abs/" ++ s }

/-- `envOk` except that `ImageOps.exif_transpose` raises. -/
def envBoom : Env := { envOk with transpose := fun _ => .error (.other "boom") }

/-- `envOk` except that `Image.open` raises a non-`UnidentifiedImageError`
exception (say an `OSError`). -/
def envIoErr : Env := { envOk with imageOpen := fun _ => .error (.other "io") }

/-- `envOk` except that `Image.open` raises `UnidentifiedImageError`. -/
def envUnid : Env := { envOk with imageOpen := fun _ => .error (.unidentified "u") }

/-- The PNG configuration with defaults. -/
def cfgPng : Cfg := { out_dir := none, fmt := "PNG", jpg_quality := 90, keep_exif := true }

/-- A file system holding two differently written names for one resolved
file (`sub/../a.heic` does not collapse under pathlib's pure syntax, but
resolves to the same file as `a.heic`). -/
def fsDup : FS :=
  { isDir := fun _ => false
    isFile := fun p => p ∈ (["a.heic", "sub/../a.heic"] : List String)
    tree := fun _ => []
    resolve := fun _ => "/r/a.heic" }

/-- A file system holding a single file whose extension is the mixed-case
variant `.Heic`. -/
def fsMixed : FS :=
  { isDir := fun _ => false
    isFile := fun p => p = "a.Heic"
    tree := fun _ => []
    resolve := fun p => p }

/-- An existence oracle for an empty output directory. -/
def exNone : String → Bool := fun _ => false

/-- An existence oracle on which exactly `d/a.png` already exists. -/
def exTaken : String → Bool := fun s => s == "d/a.png"

/-! ## General helper lemmas -/

theorem truthyBytes_isSome {o : Option String} (h : truthyBytes o = true) : o.isSome = true := by
  cases o <;> simp [truthyBytes] at h ⊢

/-! ## The encoder's metadata policy (claim C8) -/

/-- Claim C8: the `save_kwargs` metadata policy.  For a JPEG target the ICC
profile is attached exactly when truthy — independently of the
preserve-metadata flag (first two conjuncts) — and EXIF is attached exactly
when the flag is set and the bytes are truthy (third conjunct); for a PNG
target neither ICC nor EXIF is attached (last two conjuncts). -/
theorem c8_save_kwargs_metadata_policy (q : Nat) (k k' : Bool) (exif_bytes icc : Option String) :
    (make_save_kwargs "JPEG" q k exif_bytes icc).icc_profile
      = (make_save_kwargs "JPEG" q k' exif_bytes icc).icc_profile
    ∧ (make_save_kwargs "JPEG" q k exif_bytes icc).icc_profile.isSome = truthyBytes icc
    ∧ (make_save_kwargs "JPEG" q k exif_bytes icc).exif.isSome = (k && truthyBytes exif_bytes)
    ∧ (make_save_kwargs "PNG" q k exif_bytes icc).icc_profile = none
    ∧ (make_save_kwargs "PNG" q k exif_bytes icc).exif = none := by
  refine ⟨by simp [make_save_kwargs], ?_, ?_, by simp [make_save_kwargs],
    by simp [make_save_kwargs]⟩
  · by_cases h : truthyBytes icc = true
    · simp [make_save_kwargs, h, truthyBytes_isSome h]
    · simp [make_save_kwargs, h]
  · cases k with
    | false => simp [make_save_kwargs]
    | true =>
      by_cases h : truthyBytes exif_bytes = true
      · simp [make_save_kwargs, h, truthyBytes_isSome h]
      · simp [make_save_kwargs, h]

/-! ## The output path resolver (claims C3 and C10) -/

/-- The collision loop, fully characterised: under a witness `N` of a free
candidate, the loop started at `idx ≤ N` lands on the least free index at or
after `idx`. -/
theorem spLoop_spec (ex : String → Bool) (d b e : String) :
    ∀ (fuel N idx : Nat), N - idx = fuel → idx ≤ N →
      ex (spCandidate d b e N) = false →
      ∃ k, idx ≤ k ∧ k ≤ N ∧ spLoop ex d b e N idx = spCandidate d b e k ∧
        ex (spCandidate d b e k) = false ∧
        ∀ m, idx ≤ m → m < k → ex (spCandidate d b e m) = true := by
  intro fuel
  induction fuel with
  | zero =>
    intro N idx hf hle hN
    have hidx : idx = N := by omega
    refine ⟨N, by omega, le_refl N, ?_, hN, by omega⟩
    rw [spLoop]
    simp [hidx, hN]
  | succ n ih =>
    intro N idx hf hle hN
    have hlt : idx < N := by omega
    by_cases hx : ex (spCandidate d b e idx) = true
    · obtain ⟨k, hk1, hk2, hk3, hk4, hk5⟩ := ih N (idx + 1) (by omega) (by omega) hN
      refine ⟨k, by omega, hk2, ?_, hk4, ?_⟩
      · rw [spLoop]
        simp [hx, hlt, hk3]
      · intro m hm1 hm2
        rcases Nat.eq_or_lt_of_le hm1 with h | h
        · exact h ▸ hx
        · exact hk5 m (by omega) hm2
    · refine ⟨idx, le_refl idx, by omega, ?_, by simpa using hx, by omega⟩
      rw [spLoop]
      simp [hx]

/-- Claim C3: whenever some candidate index `N` is free (the call-time disk
state admits a free name), `safe_output_path` returns the first candidate of
the sequence `{base}{ext}, {base}_1{ext}, {base}_2{ext}, …` that does not
exist — in particular a non-existing path — over the directory chosen as
the given output directory if provided, else the source's parent. -/
theorem c3_safe_output_path_first_free (ex : String → Bool) (src : String)
    (out_dir : Option String) (out_ext : String) (N : Nat)
    (hN : ex (spCandidate (out_dir.getD (pathParent src)) (pathStem src) out_ext N) = false) :
    ∃ k, k ≤ N ∧
      safe_output_path ex src out_dir out_ext N
        = spCandidate (out_dir.getD (pathParent src)) (pathStem src) out_ext k ∧
      ex (spCandidate (out_dir.getD (pathParent src)) (pathStem src) out_ext k) = false ∧
      ∀ m, m < k →
        ex (spCandidate (out_dir.getD (pathParent src)) (pathStem src) out_ext m) = true := by
  obtain ⟨k, _, h2, h3, h4, h5⟩ :=
    spLoop_spec ex (out_dir.getD (pathParent src)) (pathStem src) out_ext (N - 0) N 0 rfl
      (Nat.zero_le N) hN
  refine ⟨k, h2, ?_, h4, fun m hm => h5 m (Nat.zero_le m) hm⟩
  simpa [safe_output_path] using h3

/-- Witness for C3 at a concrete input: an empty disk and source
`d/a.heic`. -/
theorem c3_witness :
    ∃ k, k ≤ 0 ∧
      safe_output_path exNone "d/a.heic" none ".png" 0
        = spCandidate ((none : Option String).getD (pathParent "d/a.heic"))
            (pathStem "d/a.heic") ".png" k ∧
      exNone (spCandidate ((none : Option String).getD (pathParent "d/a.heic"))
          (pathStem "d/a.heic") ".png" k) = false ∧
      ∀ m, m < k →
        exNone (spCandidate ((none : Option String).getD (pathParent "d/a.heic"))
            (pathStem "d/a.heic") ".png" m) = true :=
  c3_safe_output_path_first_free exNone "d/a.heic" none ".png" 0 (by decide)

/-- Claim C10: when free candidates exist (here witnessed by free indices
`N` and `M`), the collision loop terminates on its own: its value is the
first free candidate and is independent of the bound supplied, so the
source's unbounded `while` loop stops at that same candidate. -/
theorem c10_collision_loop_terminates (ex : String → Bool) (d b e : String) (N M : Nat)
    (hN : ex (spCandidate d b e N) = false) (hM : ex (spCandidate d b e M) = false) :
    ∃ k, spLoop ex d b e N 0 = spCandidate d b e k ∧
      ex (spCandidate d b e k) = false ∧
      (∀ m, m < k → ex (spCandidate d b e m) = true) ∧
      spLoop ex d b e M 0 = spLoop ex d b e N 0 := by
  obtain ⟨k1, _, _, h13, h14, h15⟩ :=
    spLoop_spec ex d b e (N - 0) N 0 rfl (Nat.zero_le N) hN
  obtain ⟨k2, _, _, h23, h24, h25⟩ :=
    spLoop_spec ex d b e (M - 0) M 0 rfl (Nat.zero_le M) hM
  have hk : k1 = k2 := by
    rcases lt_trichotomy k1 k2 with h | h | h
    · have hx := h25 k1 (Nat.zero_le _) h
      rw [h14] at hx
      cases hx
    · exact h
    · have hx := h15 k2 (Nat.zero_le _) h
      rw [h24] at hx
      cases hx
  refine ⟨k1, h13, h14, fun m hm => h15 m (Nat.zero_le m) hm, ?_⟩
  rw [h23, h13, hk]

/-- Witness for C10 at a concrete input: only `d/a.png` exists, so the loop
stops at `d/a_1.png` under either bound. -/
theorem c10_witness :
    ∃ k, spLoop exTaken "d" "a" ".png" 1 0 = spCandidate "d" "a" ".png" k ∧
      exTaken (spCandidate "d" "a" ".png" k) = false ∧
      (∀ m, m < k → exTaken (spCandidate "d" "a" ".png" m) = true) ∧
      spLoop exTaken "d" "a" ".png" 2 0 = spLoop exTaken "d" "a" ".png" 1 0 :=
  c10_collision_loop_terminates exTaken "d" "a" ".png" 1 2 (by decide) (by decide)

/-! ## The collector (claims C4 and C5) -/

/-- The dedup loop equals the first-seen-order fold whenever `seen` and
`uniq` hold the same members — in particular from the empty start state. -/
theorem dedupLoop_eq_foldl :
    ∀ (l seen uniq : List String), (∀ x, x ∈ seen ↔ x ∈ uniq) →
      dedupLoop seen uniq l = l.foldl insertNew uniq := by
  intro l
  induction l with
  | nil => intro seen uniq _; rfl
  | cons f rest ih =>
    intro seen uniq hinv
    by_cases hf : f ∈ seen
    · have hu : f ∈ uniq := (hinv f).mp hf
      simp only [dedupLoop, if_pos hf, List.foldl_cons, insertNew, if_pos hu]
      exact ih seen uniq hinv
    · have hu : f ∉ uniq := fun h => hf ((hinv f).mpr h)
      simp only [dedupLoop, if_neg hf, List.foldl_cons, insertNew, if_neg hu]
      refine ih (f :: seen) (uniq ++ [f]) ?_
      intro x
      simp only [List.mem_cons, List.mem_append, List.mem_singleton, hinv x]
      tauto

theorem foldl_insertNew_nodup :
    ∀ (l acc : List String), acc.Nodup → (l.foldl insertNew acc).Nodup := by
  intro l
  induction l with
  | nil => intro acc h; exact h
  | cons f rest ih =>
    intro acc h
    refine ih (insertNew acc f) ?_
    unfold insertNew
    by_cases hf : f ∈ acc
    · simpa [hf] using h
    · simp [hf, List.nodup_append, h]

theorem mem_foldl_insertNew :
    ∀ (l acc : List String) (x : String), x ∈ l.foldl insertNew acc ↔ x ∈ acc ∨ x ∈ l := by
  intro l
  induction l with
  | nil => intro acc x; simp
  | cons f rest ih =>
    intro acc x
    rw [List.foldl_cons, ih]
    unfold insertNew
    by_cases hf : f ∈ acc
    · rw [if_pos hf]
      simp only [List.mem_cons]
      constructor
      · tauto
      · rintro (h | h | h)
        · exact Or.inl h
        · exact Or.inl (h ▸ hf)
        · exact Or.inr h
    · rw [if_neg hf]
      simp only [List.mem_append, List.mem_singleton, List.mem_cons]
      tauto

/-- Dedup neither loses nor invents entries. -/
theorem mem_collect_iff_raw (fs : FS) (paths : List String) (x : String) :
    x ∈ collect_heic_files fs paths ↔ x ∈ rawFiles fs paths := by
  rw [collect_heic_files, dedupLoop_eq_foldl _ [] [] (by simp), mem_foldl_insertNew]
  simp

/-- What one input path contributes to the raw file list. -/
theorem mem_collectStep (fs : FS) (p x : String) :
    x ∈ collectStep fs p ↔
      (fs.isDir p = true ∧
        ∃ ext ∈ SUPPORTED_EXTS, x ∈ fs.tree p ∧ strEndsWith (pathName x) ext = true)
      ∨ (fs.isDir p = false ∧ fs.isFile p = true ∧ pathSuffix p ∈ SUPPORTED_EXTS ∧ x = p) := by
  by_cases hd : fs.isDir p
  · simp [collectStep, hd, rglobMatch, List.mem_flatMap, List.mem_filter]
  · rw [Bool.not_eq_true] at hd
    by_cases hf : fs.isFile p ∧ pathSuffix p ∈ SUPPORTED_EXTS
    · simp [collectStep, hd, hf]
    · simp only [collectStep, hd, Bool.false_eq_true, if_false, if_neg hf, List.not_mem_nil,
        false_iff]
      rintro (⟨h, _⟩ | ⟨_, h1, h2, _⟩)
      · cases h
      · exact hf ⟨h1, h2⟩

/-- Claim C4 (amended): the collector's output deduplicates by path value —
it is the first-seen-order fold of the raw traversal, contains no duplicate
path, and keeps exactly the traversal's members.  (Deduplication by
*resolved* path, as originally claimed, fails: see the counterexample.) -/
theorem c4_collect_first_seen_dedup (fs : FS) (paths : List String) :
    collect_heic_files fs paths = (rawFiles fs paths).foldl insertNew []
    ∧ (collect_heic_files fs paths).Nodup
    ∧ ∀ x, x ∈ collect_heic_files fs paths ↔ x ∈ rawFiles fs paths := by
  have h0 : collect_heic_files fs paths = (rawFiles fs paths).foldl insertNew [] :=
    dedupLoop_eq_foldl _ [] [] (by simp)
  refine ⟨h0, ?_, fun x => mem_collect_iff_raw fs paths x⟩
  rw [h0]
  exact foldl_insertNew_nodup _ [] List.nodup_nil

/-- Counterexample to C4 as stated: two differently written names of one
resolved file both survive collection, so the output does contain two
entries naming the same resolved filesystem path. -/
theorem c4_counterexample :
    collect_heic_files fsDup ["a.heic", "sub/../a.heic"] = ["a.heic", "sub/../a.heic"]
    ∧ fsDup.resolve "a.heic" = fsDup.resolve "sub/../a.heic"
    ∧ ("a.heic" : String) ≠ "sub/../a.heic" :=
  ⟨by decide, rfl, by decide⟩

/-- Claim C5 (amended): membership in the collector's output, exactly.  A
file input is included iff its suffix is literally one of
`.heic/.heif/.HEIC/.HEIF`; a directory input contributes exactly the
recursively enumerated entries whose name ends with one of those four
spellings; everything else is silently ignored.  (Full case-insensitivity,
as originally claimed, fails: see the counterexample.) -/
theorem c5_collect_membership (fs : FS) (paths : List String) (x : String) :
    x ∈ collect_heic_files fs paths ↔
      ∃ p ∈ paths,
        (fs.isDir p = true ∧
          ∃ ext ∈ SUPPORTED_EXTS, x ∈ fs.tree p ∧ strEndsWith (pathName x) ext = true)
        ∨ (fs.isDir p = false ∧ fs.isFile p = true ∧ pathSuffix p ∈ SUPPORTED_EXTS ∧ x = p) := by
  rw [mem_collect_iff_raw, rawFiles, List.mem_flatMap]
  constructor
  · rintro ⟨p, hp, hx⟩
    exact ⟨p, hp, (mem_collectStep fs p x).mp hx⟩
  · rintro ⟨p, hp, hx⟩
    exact ⟨p, hp, (mem_collectStep fs p x).mpr hx⟩

/-- Counterexample to C5 as stated: a file whose extension is the mixed-case
variant `.Heic` — a case variant of `.heic` — is a file input yet excluded
by the collector. -/
theorem c5_counterexample :
    fsMixed.isFile "a.Heic" = true
    ∧ strLower (pathSuffix "a.Heic") = ".heic"
    ∧ collect_heic_files fsMixed ["a.Heic"] = [] :=
  ⟨rfl, by decide, by decide⟩

/-! ## Event classification lemmas for the two run loops -/

theorem isLog_basicTerminal (env : Env) (cfg : Cfg) (src : String) :
    isLogEvent (basicTerminal env cfg src) = true := by
  unfold basicTerminal
  split <;> rfl

theorem isLog_debugTerminal (env : Env) (cfg : Cfg) (src : String) :
    isLogEvent (debugTerminal env cfg src) = true := by
  unfold debugTerminal
  split <;> rfl

theorem seekStep_fst_warn (env : Env) (im : Img) :
    ∀ e ∈ (seekStep env im).1, isWarnEvent e = true := by
  intro e he
  unfold seekStep at he
  split at he
  · simp at he
  · simp at he
    subst he
    rfl

theorem transposeStep_fst_warn (env : Env) (im : Img) :
    ∀ e ∈ (transposeStep env im).1, isWarnEvent e = true := by
  intro e he
  unfold transposeStep at he
  split at he
  · simp at he
  · simp at he
    subst he
    rfl

theorem debugConvert_fst_warn (env : Env) (cfg : Cfg) (src : String) :
    ∀ e ∈ (debugConvert env cfg src).1, isWarnEvent e = true := by
  intro e he
  unfold debugConvert at he
  split at he
  · simp at he
  · split at he
    · simp at he
    · dsimp only at he
      split at he <;>
        · rcases List.mem_append.mp he with h | h
          · exact seekStep_fst_warn env _ e h
          · exact transposeStep_fst_warn env _ e h

theorem isLog_of_isWarn {e : Event} (h : isWarnEvent e = true) : isLogEvent e = true := by
  cases e <;> simp_all [isWarnEvent, isLogEvent]

theorem progressOf_eq_none_of_isLog {e : Event} (h : isLogEvent e = true) :
    progressOf e = none := by
  cases e <;> simp_all [isLogEvent, progressOf]

theorem ne_done_of_isLog {e : Event} (h : isLogEvent e = true) : e ≠ Event.done := by
  cases e <;> simp_all [isLogEvent]

theorem terminalOf_eq_none_of_isWarn {e : Event} (h : isWarnEvent e = true) :
    terminalOf e = none := by
  cases e <;> simp_all [isWarnEvent, terminalOf]

theorem terminalOf_basicTerminal (env : Env) (cfg : Cfg) (src : String) :
    terminalOf (basicTerminal env cfg src) = some (basicTerminal env cfg src) := by
  unfold basicTerminal
  split <;> rfl

theorem terminalOf_debugTerminal (env : Env) (cfg : Cfg) (src : String) :
    terminalOf (debugTerminal env cfg src) = some (debugTerminal env cfg src) := by
  unfold debugTerminal
  split <;> rfl

theorem basicBody_isLog (env : Env) (cfg : Cfg) (src : String) :
    ∀ e ∈ basicBody env cfg src, isLogEvent e = true := by
  intro e he
  simp [basicBody] at he
  subst he
  exact isLog_basicTerminal env cfg src

theorem debugBody_isLog (env : Env) (cfg : Cfg) (src : String) :
    ∀ e ∈ debugBody env cfg src, isLogEvent e = true := by
  intro e he
  unfold debugBody at he
  rcases List.mem_cons.mp he with h | h
  · subst h; rfl
  · rcases List.mem_append.mp h with h2 | h2
    · exact isLog_of_isWarn (debugConvert_fst_warn env cfg src e h2)
    · simp at h2
      subst h2
      exact isLog_debugTerminal env cfg src

/-! ## Trace lemmas for the shared loop skeleton -/

/-- The full shape of a run trace: per file, in input order, the body's log
events followed by that file's progress event, then the single completion
event. -/
theorem runLoop_eq_enumFrom (body : String → List Event) (total : Nat) :
    ∀ (l : List String) (c : Nat),
      runLoop body total c l
        = ((List.enumFrom c l).flatMap fun p => body p.2 ++ [Event.progress (p.1 + 1) total])
            ++ [Event.done] := by
  intro l
  induction l with
  | nil => intro c; rfl
  | cons s rest ih =>
    intro c
    show body s ++ Event.progress (c + 1) total :: runLoop body total (c + 1) rest = _
    rw [ih (c + 1)]
    simp [List.enumFrom, List.flatMap_cons, List.append_assoc]

theorem runLoop_filterMap_progress (body : String → List Event) (total : Nat)
    (hb : ∀ s, ∀ e ∈ body s, progressOf e = none) :
    ∀ (l : List String) (c : Nat),
      (runLoop body total c l).filterMap progressOf
        = (List.range l.length).map (fun i => (c + i + 1, total)) := by
  intro l
  induction l with
  | nil => intro c; rfl
  | cons s rest ih =>
    intro c
    show (body s ++ Event.progress (c + 1) total :: runLoop body total (c + 1) rest).filterMap
        progressOf = _
    rw [List.filterMap_append, List.filterMap_eq_nil_iff.mpr (hb s), List.filterMap_cons]
    simp only [progressOf, List.nil_append, List.length_cons, List.range_succ_eq_map,
      List.map_cons, ih (c + 1), List.map_map]
    refine congrArg _ ?_
    refine congrArg (fun f => List.map f (List.range rest.length)) ?_
    funext i
    simp [Function.comp, Nat.succ_eq_add_one]
    omega

theorem runLoop_filterMap_terminal (body : String → List Event) (total : Nat) :
    ∀ (l : List String) (c : Nat),
      (runLoop body total c l).filterMap terminalOf
        = l.flatMap (fun s => (body s).filterMap terminalOf) := by
  intro l
  induction l with
  | nil => intro c; rfl
  | cons s rest ih =>
    intro c
    show (body s ++ Event.progress (c + 1) total :: runLoop body total (c + 1) rest).filterMap
        terminalOf = _
    rw [List.filterMap_append, List.filterMap_cons, List.flatMap_cons]
    simp only [terminalOf, ih (c + 1)]

theorem runLoop_count_done (body : String → List Event) (total : Nat)
    (hb : ∀ s, ∀ e ∈ body s, isLogEvent e = true) :
    ∀ (l : List String) (c : Nat), (runLoop body total c l).count Event.done = 1 := by
  intro l
  induction l with
  | nil => intro c; rfl
  | cons s rest ih =>
    intro c
    show (body s ++ Event.progress (c + 1) total :: runLoop body total (c + 1) rest).count
        Event.done = 1
    rw [List.count_append, List.count_cons, ih (c + 1)]
    have h0 : (body s).count Event.done = 0 :=
      List.count_eq_zero.mpr (fun h => ne_done_of_isLog (hb s _ h) rfl)
    simp [h0]

theorem runLoop_getLast (body : String → List Event) (total : Nat)
    (l : List String) (c : Nat) : (runLoop body total c l).getLast? = some Event.done := by
  rw [runLoop_eq_enumFrom]
  exact List.getLast?_concat _

theorem flatMap_singleton_eq_map {α β : Type} (f : α → β) :
    ∀ l : List α, (l.flatMap fun s => [f s]) = l.map f := by
  intro l
  induction l with
  | nil => rfl
  | cons a t ih => simp [List.flatMap_cons, ih]

theorem basicBody_filterMap_terminal (env : Env) (cfg : Cfg) (src : String) :
    (basicBody env cfg src).filterMap terminalOf = [basicTerminal env cfg src] := by
  simp [basicBody, List.filterMap_cons, terminalOf_basicTerminal]

theorem debugBody_filterMap_terminal (env : Env) (cfg : Cfg) (src : String) :
    (debugBody env cfg src).filterMap terminalOf = [debugTerminal env cfg src] := by
  have hw : (debugConvert env cfg src).1.filterMap terminalOf = [] :=
    List.filterMap_eq_nil_iff.mpr
      (fun e he => terminalOf_eq_none_of_isWarn (debugConvert_fst_warn env cfg src e he))
  simp [debugBody, List.filterMap_cons, List.filterMap_append, hw, terminalOf_debugTerminal,
    show ∀ s, terminalOf (Event.logStart s) = none from fun _ => rfl]

/-- Exactly one terminal log line per input file, in input order (basic). -/
theorem runBasic_terminal_map (env : Env) (cfg : Cfg) (files : List String) :
    (runBasic env cfg files).filterMap terminalOf = files.map (basicTerminal env cfg) := by
  rw [runBasic, runLoop_filterMap_terminal]
  induction files with
  | nil => rfl
  | cons s rest ih =>
    simp [List.flatMap_cons, basicBody_filterMap_terminal, flatMap_singleton_eq_map]

/-- Exactly one terminal log line per input file, in input order (debug). -/
theorem runDebug_terminal_map (env : Env) (cfg : Cfg) (files : List String) :
    (runDebug env cfg files).filterMap terminalOf = files.map (debugTerminal env cfg) := by
  rw [runDebug, runLoop_filterMap_terminal]
  induction files with
  | nil => rfl
  | cons s rest ih =>
    simp [List.flatMap_cons, debugBody_filterMap_terminal, flatMap_singleton_eq_map]

/-- The progress events of a basic run are `(1, N), …, (N, N)` exactly. -/
theorem runBasic_progress_map (env : Env) (cfg : Cfg) (files : List String) :
    (runBasic env cfg files).filterMap progressOf
      = (List.range files.length).map (fun i => (i + 1, files.length)) := by
  rw [runBasic, runLoop_filterMap_progress _ _
    (fun s e he => progressOf_eq_none_of_isLog (basicBody_isLog env cfg s e he))]
  simp

/-- The progress events of a diagnostic run are `(1, N), …, (N, N)` exactly. -/
theorem runDebug_progress_map (env : Env) (cfg : Cfg) (files : List String) :
    (runDebug env cfg files).filterMap progressOf
      = (List.range files.length).map (fun i => (i + 1, files.length)) := by
  rw [runDebug, runLoop_filterMap_progress _ _
    (fun s e he => progressOf_eq_none_of_isLog (debugBody_isLog env cfg s e he))]
  simp

/-! ## The batch runner (claims C1, C2 and C9) -/

/-- Claim C1: in both variants, every run — under arbitrary per-file
behaviour of resolution, decode and encode, any of which may raise — yields
exactly one terminal log line per input file in input order (the error line
for a failing file, by definition of `basicTerminal` / `debugTerminal`),
keeps processing subsequent files, and ends with exactly one completion
event, which is the last event of the trace. -/
theorem c1_failure_isolation_and_completion (env : Env) (cfg : Cfg) (files : List String) :
    ((runBasic env cfg files).filterMap terminalOf = files.map (basicTerminal env cfg)
      ∧ (runBasic env cfg files).count Event.done = 1
      ∧ (runBasic env cfg files).getLast? = some Event.done)
    ∧ ((runDebug env cfg files).filterMap terminalOf = files.map (debugTerminal env cfg)
      ∧ (runDebug env cfg files).count Event.done = 1
      ∧ (runDebug env cfg files).getLast? = some Event.done) :=
  ⟨⟨runBasic_terminal_map env cfg files,
    runLoop_count_done _ _ (basicBody_isLog env cfg) files 0,
    runLoop_getLast _ _ files 0⟩,
   ⟨runDebug_terminal_map env cfg files,
    runLoop_count_done _ _ (debugBody_isLog env cfg) files 0,
    runLoop_getLast _ _ files 0⟩⟩

/-- Claim C2: in both variants, a batch of `N` files emits exactly the
progress events `(1, N), (2, N), …, (N, N)` — strictly increasing counters
against the fixed total, final counter `N` — and exactly `N` per-file
outcomes (terminal log lines), the `i`-th for the `i`-th input. -/
theorem c2_outcome_and_progress_counts (env : Env) (cfg : Cfg) (files : List String) :
    ((runBasic env cfg files).filterMap progressOf
        = (List.range files.length).map (fun i => (i + 1, files.length))
      ∧ (runBasic env cfg files).filterMap terminalOf = files.map (basicTerminal env cfg))
    ∧ ((runDebug env cfg files).filterMap progressOf
        = (List.range files.length).map (fun i => (i + 1, files.length))
      ∧ (runDebug env cfg files).filterMap terminalOf = files.map (debugTerminal env cfg)) :=
  ⟨⟨runBasic_progress_map env cfg files, runBasic_terminal_map env cfg files⟩,
   ⟨runDebug_progress_map env cfg files, runDebug_terminal_map env cfg files⟩⟩

/-- Claim C9 (amended): events are emitted in strict file-processing order.
The basic variant emits exactly one (log, progress) pair per file — its
whole trace is that flat sequence plus the final completion event; the
diagnostic variant emits exactly one progress event and one terminal log
line per file in order, but precedes them with a start line (and possibly
warning lines), so "exactly one log event per file" holds only for the
basic variant (see the counterexample).  Progress counters are the strictly
increasing `1..N` against the fixed total. -/
theorem c9_event_order (env : Env) (cfg : Cfg) (files : List String) :
    runBasic env cfg files
      = ((List.enumFrom 0 files).flatMap fun p =>
          [basicTerminal env cfg p.2, Event.progress (p.1 + 1) files.length]) ++ [Event.done]
    ∧ (runDebug env cfg files).filterMap progressOf
        = (List.range files.length).map (fun i => (i + 1, files.length))
    ∧ (runDebug env cfg files).filterMap terminalOf = files.map (debugTerminal env cfg) := by
  refine ⟨?_, runDebug_progress_map env cfg files, runDebug_terminal_map env cfg files⟩
  rw [runBasic, runLoop_eq_enumFrom]
  refine congrArg (· ++ [Event.done]) ?_
  refine congrArg (List.flatMap (List.enumFrom 0 files)) ?_
  funext p
  simp [basicBody]

/-- Counterexample to C9 as stated: the diagnostic variant emits two log
events (start line and terminal line) for a single successfully converted
file, not one. -/
theorem c9_counterexample : (runDebug envOk cfgPng ["a.heic"]).countP isLogEvent ≠ 1 := by
  decide

/-! ## The normalizer's fallback policy (claim C6) -/

/-- Claim C6 (amended): `open_image_any` falls back to the dedicated HEIF
decode path if and only if `Image.open` raises an unrecognized-format error;
on `Image.open` success it returns that image with its embedded metadata,
and any other `Image.open` exception propagates as the failure — without
the fallback being attempted, so the normalizer can fail even though the
second attempt was never exhausted (see the counterexample). -/
theorem c6_open_image_any_fallback_policy (env : Env) (path : String) :
    (∀ im, env.imageOpen path = .ok im →
      open_image_any env path = .ok (im, im.info_exif, im.info_icc))
    ∧ (∀ m, env.imageOpen path = .error (.unidentified m) →
      open_image_any env path = heifFallback env path)
    ∧ (∀ m, env.imageOpen path = .error (.other m) →
      open_image_any env path = .error (.other m)) := by
  refine ⟨fun im h => ?_, fun m h => ?_, fun m h => ?_⟩ <;> simp [open_image_any, h]

/-- Witness for C6 at a concrete input: an `UnidentifiedImageError` routes
the call into the HEIF fallback. -/
theorem c6_witness : open_image_any envUnid "p" = heifFallback envUnid "p" :=
  (c6_open_image_any_fallback_policy envUnid "p").2.1 "u" rfl

/-- Counterexample to C6 as stated ("fails only when both attempts fail"):
with `Image.open` raising a non-`UnidentifiedImageError` exception the
normalizer fails although the HEIF fallback would have succeeded. -/
theorem c6_counterexample :
    open_image_any envIoErr "a.heic" = .error (.other "io")
    ∧ heifFallback envIoErr "a.heic"
        = .ok ({ mode := "RGB", info_exif := none, info_icc := none }, none, none) :=
  ⟨rfl, rfl⟩

/-! ## The orientation transform (claim C7) -/

/-- Claim C7 (amended): when `exif_transpose` raises (everything else
succeeding), the diagnostic variant logs a warning and proceeds to encode
the un-transposed image, ending in the success line; the basic variant has
no guard around the transform, so the same failure reaches its per-file
handler and the file is classified as a Failure (error line) — the batch
still continues, but the file yields no output. -/
theorem c7_transpose_failure_policy (env : Env) (cfg : Cfg) (src out : String)
    (im im1 : Img) (e : PyErr)
    (hres : env.resolveOut src cfg.out_dir (outExt cfg.fmt) = .ok out)
    (hopen : env.imageOpen src = .ok im)
    (hseek : env.seekFirst im = .ok im1)
    (htr : env.transpose im1 = .error e)
    (hsave : env.save
        (if cfg.fmt = "JPEG" ∧ im1.mode ≠ "RGB" then env.convertRGB im1 else im1)
        out cfg.fmt
        (make_save_kwargs cfg.fmt cfg.jpg_quality cfg.keep_exif im.info_exif im.info_icc)
        = .ok ()) :
    debugBody env cfg src
      = [Event.logStart (env.pathResolve src), Event.logWarnTranspose (errMsg e),
         Event.logOk (pathName src) (pathName out)]
    ∧ basicBody env cfg src = [Event.logErr src (errMsg e)] := by
  constructor
  · simp [debugBody, debugTerminal, debugConvert, open_image_any, hres, hopen, seekStep, hseek,
      transposeStep, htr, hsave]
  · simp [basicBody, basicTerminal, basicConvert, hres, hopen, hseek, htr]

/-- Witness for C7 at a concrete input: the transform raises `boom`, the
diagnostic variant warns and succeeds, the basic variant logs the error. -/
theorem c7_witness :
    debugBody envBoom cfgPng "a.heic"
      = [Event.logStart (envBoom.pathResolve "a.heic"),
         Event.logWarnTranspose (errMsg (.other "boom")),
         Event.logOk (pathName "a.heic") (pathName "a.heic.png")]
    ∧ basicBody envBoom cfgPng "a.heic" = [Event.logErr "a.heic" (errMsg (.other "boom"))] :=
  c7_transpose_failure_policy envBoom cfgPng "a.heic" "a.heic.png" imgA imgA (.other "boom")
    rfl rfl rfl rfl rfl

/-- Counterexample to C7 as stated: in `heic_batch_converter.py` a transform
failure produces the error line, no warning and no success line — the file
is classified as a Failure rather than converted un-transposed. -/
theorem c7_counterexample :
    runBasic envBoom cfgPng ["a.heic"]
      = [Event.logErr "a.heic" "boom", Event.progress 1 1, Event.done]
    ∧ (runBasic envBoom cfgPng ["a.heic"]).countP isWarnEvent = 0 :=
  ⟨by decide, by decide⟩
